import Mathlib

/-!
Verification development for the paginated-fetch engine in src/api.rs of the
repository does-elon-musk-pee-sitting-down.

The shallow embedding below translates the Rust source into Lean:

* URLs (the url crate's Url restricted to what the program uses) become a base
  string plus an ordered list of query pairs; Url::query_pairs_mut().append_pair
  appends one pair at the end, preserving the existing ones.
* The generic single-page fetcher ApiResult::get is a function from the
  transport outcome (transport failure, or a status code plus a body that may
  or may not decode into the ApiData shape) to Except ApiError (ApiData T).
  reqwest's Response::error_for_status errors exactly on client-error and
  server-error statuses, 400 through 599.
* The stream ApiResults<T> becomes a record of the fields the source struct
  owns (url, the fused fetch future, the item iterator, the pagination token).
  The fused future Fuse<ApiResult<Vec<T>>> is modelled with three states:
  unpolled (the future was constructed but never polled - Rust futures are
  lazy, so no request has reached the transport yet), inFlight (polled at
  least once while still pending - the request is on the wire), and
  terminated (the inner future completed, Fuse::is_terminated is true).
* Stream::poll_next becomes a pure step function: it takes the current state
  plus the environment's answer for polling the current fetch future
  (still pending, or ready with a result), and returns the poll outcome, the
  new state, the URL of a request that newly reached the transport during this
  call (if any), and whether the fetch future was polled at all.
-/

/-- A URL as used by the program: rendered base (scheme, host, path) plus the
ordered query pairs. -/
structure Url where
  base : String
  query : List (String × String)
deriving DecidableEq

/-- The error taxonomy of the program. The source's ApiError wraps
reqwest::Error (which is a transport failure, a status error produced by
error_for_status, or a body-decode failure) and url::ParseError. -/
inductive ApiError where
  | transport
  | httpStatus (code : Nat)
  | decode
  | urlParse
deriving DecidableEq

/-- struct ApiMeta (src/api.rs lines 43-50). -/
structure ApiMeta where
  result_count : Nat
  oldest_id : Option String
  newest_id : Option String
  next_token : Option String
  previous_token : Option String
deriving DecidableEq

/-- struct ApiData<T> (src/api.rs lines 52-56): both fields are optional in
the wire schema. -/
structure ApiData (T : Type) where
  data : Option T
  meta : Option ApiMeta
deriving DecidableEq

/-- Outcome of one HTTP GET at the transport boundary: either the transport
fails, or a response arrives with a status code and a body; the body is
recorded as some d when it decodes into the ApiData shape and none when it is
malformed for that shape. -/
inductive TransportOutcome (T : Type) where
  | transportFail
  | response (status : Nat) (body : Option (ApiData T))
deriving DecidableEq

/-- reqwest's Response::error_for_status: an error exactly for client-error
(400-499) and server-error (500-599) statuses. -/
def error_for_status (status : Nat) : Bool :=
  decide (400 ≤ status ∧ status ≤ 599)

/-- ApiResult::get (src/api.rs lines 105-123), as the value its future resolves
to for a given transport outcome: send the request, turn an error status into
Err before touching the body, then decode the body into ApiData<T>. -/
def apiResultGet {T : Type} (o : TransportOutcome T) : Except ApiError (ApiData T) :=
  match o with
  | .transportFail => .error .transport
  | .response status body =>
    if error_for_status status then .error (.httpStatus status)
    else
      match body with
      | some d => .ok d
      | none => .error .decode

/-- The state of Fuse<ApiResult<Vec<T>>> inside ApiResults. unpolled: the
future exists but was never polled (futures are lazy: the request has not
reached the transport); inFlight: polled while pending (the request is on the
wire); terminated: the inner future completed. is_terminated is true exactly
in the last state. -/
inductive Fuse where
  | unpolled (u : Url)
  | inFlight (u : Url)
  | terminated
deriving DecidableEq

/-- struct ApiResults<T> (src/api.rs lines 137-145), minus the Api handle
(client plus credentials), which the state machine never inspects. -/
structure ApiResults (T : Type) where
  url : Url
  result : Fuse
  items : List T
  pagination_token : Option String
deriving DecidableEq

/-- ApiResults::get (src/api.rs lines 151-160): store the url, construct the
first fetch future without polling it, start with an empty item iterator and
no pagination token. -/
def ApiResults.get {T : Type} (u : Url) : ApiResults T :=
  ⟨u, .unpolled u, [], none⟩

/-- The URL for a token-bearing page fetch (src/api.rs lines 181-184): clone
the original url and append the pair ("pagination_token", token) to its query. -/
def withPaginationToken (u : Url) (token : String) : Url :=
  ⟨u.base, u.query ++ [("pagination_token", token)]⟩

deriving instance DecidableEq for Except

/-- The environment's answer when poll_next polls the current fetch future:
still pending, or ready with the fetch's result. -/
inductive EnvPoll (T : Type) where
  | pending
  | ready (r : Except ApiError (ApiData (List T)))
deriving DecidableEq

/-- What one call to poll_next returns to the consumer. -/
inductive PollOut (T : Type) where
  | pending
  | ready (x : Option (Except ApiError T))
deriving DecidableEq

/-- Result of one poll_next step: the poll outcome, the successor state, the
URL of a request that newly reached the transport during this call (if any),
and whether the fetch future was polled (used to know whether the environment's
answer was consumed). -/
structure StepRes (T : Type) where
  out : PollOut T
  state : ApiResults T
  req : Option Url
  envUsed : Bool
deriving DecidableEq

/-- The shared tail of poll_next once it polls the fetch future at url u
(src/api.rs lines 191-201). isNew is true when this future had never been
polled before, so this poll is the moment its request reaches the transport.
On Ok: store the new page's next_token, replace the iterator with the page's
items (absent items treated as empty) and pop the first one. On Err: report
the error; token and items are untouched. Either way Fuse marks the future
terminated once it resolved. -/
def pollFetch {T : Type} (s : ApiResults T) (u : Url) (isNew : Bool) (env : EnvPoll T) :
    StepRes T :=
  let req := if isNew then some u else none
  match env with
  | .pending => ⟨.pending, { s with result := .inFlight u }, req, true⟩
  | .ready (.error e) => ⟨.ready (some (.error e)), { s with result := .terminated }, req, true⟩
  | .ready (.ok d) =>
    let tok := d.meta.bind (fun m => m.next_token)
    match d.data.getD [] with
    | [] => ⟨.ready none, { s with result := .terminated, pagination_token := tok, items := [] },
        req, true⟩
    | i :: rest => ⟨.ready (some (.ok i)),
        { s with result := .terminated, pagination_token := tok, items := rest }, req, true⟩

/-- Stream::poll_next for ApiResults<T> (src/api.rs lines 168-202):
1. if the iterator yields an item, return it;
2. otherwise, if the fetch future is terminated: with a pagination token,
   construct a fresh fetch future for the cloned url with the token appended
   (and fall through to polling it); with no token, return Ready(None);
3. poll the (possibly fresh) fetch future. -/
def ApiResults.poll_next {T : Type} (s : ApiResults T) (env : EnvPoll T) : StepRes T :=
  match s.items with
  | i :: rest => ⟨.ready (some (.ok i)), { s with items := rest }, none, false⟩
  | [] =>
    match s.result with
    | .unpolled u => pollFetch s u true env
    | .inFlight u => pollFetch s u false env
    | .terminated =>
      match s.pagination_token with
      | none => ⟨.ready none, s, none, false⟩
      | some t => pollFetch s (withPaginationToken s.url t) true env

/-- Drive one poll_next against a mock transport script: the script lists the
results of successive fetches, each consumed when the fetch that receives it
is polled; polling with an exhausted script leaves the fetch pending. -/
def pollNextScript {T : Type} (s : ApiResults T)
    (script : List (Except ApiError (ApiData (List T)))) :
    StepRes T × List (Except ApiError (ApiData (List T))) :=
  match script with
  | [] => (ApiResults.poll_next s .pending, [])
  | r :: rest =>
    let st := ApiResults.poll_next s (.ready r)
    (st, if st.envUsed then rest else r :: rest)

/-- Pull exactly n times against a mock script, recording each poll outcome and
every request URL that reached the transport. -/
def pullN {T : Type} : Nat → ApiResults T → List (Except ApiError (ApiData (List T))) →
    List (PollOut T) × List Url × ApiResults T
  | 0, s, _ => ([], [], s)
  | n + 1, s, script =>
    let st := (pollNextScript s script).1
    let script' := (pollNextScript s script).2
    let y := pullN n st.state script'
    (st.out :: y.1, st.req.toList ++ y.2.1, y.2.2)

/-- Pull until the stream reports end-of-sequence (or suspends on an exhausted
script), as a consumer looping on StreamExt::next does; collect the yielded
results and every request URL that reached the transport. The fuel bounds the
number of pulls. -/
def runUntilEnd {T : Type} : Nat → ApiResults T → List (Except ApiError (ApiData (List T))) →
    List (Except ApiError T) × List Url × ApiResults T
  | 0, s, _ => ([], [], s)
  | fuel + 1, s, script =>
    let st := (pollNextScript s script).1
    let script' := (pollNextScript s script).2
    match st.out with
    | .ready none => ([], st.req.toList, st.state)
    | .pending => ([], st.req.toList, st.state)
    | .ready (some r) =>
      let y := runUntilEnd fuel st.state script'
      (r :: y.1, st.req.toList ++ y.2.1, y.2.2)

/-- Terminal exhaustion: empty buffer, completed fetch, no continuation token. -/
def Exhausted {T : Type} (s : ApiResults T) : Prop :=
  s.items = [] ∧ s.result = .terminated ∧ s.pagination_token = none

/-- Encode a mock page (item list plus optional next_token) as the ApiData the
transport returns for it. -/
def encodePage {T : Type} (p : List T × Option String) : ApiData (List T) :=
  ⟨some p.1, some ⟨p.1.length, none, none, p.2, none⟩⟩

/-- A mock transport script serving the given pages in order. -/
def pagesScript {T : Type} (ps : List (List T × Option String)) :
    List (Except ApiError (ApiData (List T))) :=
  ps.map (fun p => .ok (encodePage p))

/-- Concatenation of the pages' item lists, in page order. -/
def pagesItems {T : Type} : List (List T × Option String) → List T
  | [] => []
  | p :: rest => p.1 ++ pagesItems rest

/-- Total number of items across the pages. -/
def itemCount {T : Type} : List (List T × Option String) → Nat
  | [] => 0
  | p :: rest => p.1.length + itemCount rest

/-- A well-formed finite page sequence: every page but the last carries a
continuation token and at least one item, and the last page carries no token. -/
def goodPages {T : Type} : List (List T × Option String) → Prop
  | [] => True
  | (its, tok) :: rest =>
    match rest with
    | [] => tok = none
    | _ :: _ => its ≠ [] ∧ tok ≠ none ∧ goodPages rest

/-- struct BearerToken (src/api.rs line 69): a newtype over the secret token
string. -/
structure BearerToken where
  token : String
deriving DecidableEq

/-- impl fmt::Debug for BearerToken (src/api.rs lines 77-81):
f.debug_struct("BearerToken").finish() renders just the struct name, with no
fields, independently of the wrapped string. -/
def BearerToken.debugFmt (_ : BearerToken) : String :=
  "BearerToken"

/-- impl fmt::Display for BearerToken (src/api.rs lines 83-87): write the
wrapped string verbatim. -/
def BearerToken.displayFmt (t : BearerToken) : String :=
  t.token

/-- struct User (src/api.rs lines 26-31). -/
structure User where
  id : String
  name : String
  username : String
deriving DecidableEq

/-- struct Tweet (src/api.rs lines 19-24); the timestamp is kept as its
rendered string since no claim inspects it. -/
structure Tweet where
  id : String
  text : String
  created_at : Option String
deriving DecidableEq

/-- struct GetTweetOpts (src/api.rs lines 33-41). tweet_fields is a HashSet of
rendered field names; its iteration order is abstracted as a list. end_time is
kept as its rendered RFC3339 string. -/
structure GetTweetOpts where
  tweet_fields : List String
  max_results : Option Nat
  end_time : Option String
deriving DecidableEq

/-- The URL Api::get_user_tweets builds (src/api.rs lines 226-251):
base_url.join("/2/users/{id}/tweets") (which replaces path and query of the
base URL), then append tweet.fields (comma-joined, only if non-empty),
max_results, and end_time as query pairs. -/
def userTweetsUrl (user_id : String) (opts : Option GetTweetOpts) : Url :=
  let u : Url := ⟨"https://api.twitter.com/2/users/" ++ user_id ++ "/tweets", []⟩
  match opts with
  | none => u
  | some o =>
    let q1 : List (String × String) :=
      if o.tweet_fields.isEmpty then []
      else [("tweet.fields", String.intercalate "," o.tweet_fields)]
    let q2 : List (String × String) :=
      match o.max_results with
      | some m => [("max_results", toString m)]
      | none => []
    let q3 : List (String × String) :=
      match o.end_time with
      | some e => [("end_time", e)]
      | none => []
    ⟨u.base, u.query ++ q1 ++ q2 ++ q3⟩

/-- Api::get_user_tweets (src/api.rs lines 221-253): build the URL from the
options and construct the stream; nothing is polled. -/
def get_user_tweets (user_id : String) (opts : Option GetTweetOpts) : ApiResults Tweet :=
  ApiResults.get (userTweetsUrl user_id opts)

/-- Api::get_user_by_username (src/api.rs lines 214-219), composed with
ApiResult::data (lines 125-128): fetch /2/users/by/username/{username}, take
the optional data field of the decoded body and unwrap it. The unwrap of a
missing data field is a panic, modelled as none; some r is a normal return. -/
def get_user_by_username (outcome : TransportOutcome User) :
    Option (Except ApiError User) :=
  match apiResultGet outcome with
  | .error e => some (.error e)
  | .ok d =>
    match d.data with
    | some u => some (.ok u)
    | none => none

/-- A pull with a non-empty buffer pops the front item; the fetch future is
untouched and nothing is polled. -/
theorem step_yield {T : Type} (u : Url) (fz : Fuse) (i : T) (rest : List T)
    (tk : Option String) (env : EnvPoll T) :
    ApiResults.poll_next (⟨u, fz, i :: rest, tk⟩ : ApiResults T) env =
      ⟨.ready (some (.ok i)), ⟨u, fz, rest, tk⟩, none, false⟩ :=
  rfl

/-- A pull on the exhausted state returns Ready(None) and changes nothing. -/
theorem step_exhausted {T : Type} (u : Url) (env : EnvPoll T) :
    ApiResults.poll_next (⟨u, .terminated, [], none⟩ : ApiResults T) env =
      ⟨.ready none, ⟨u, .terminated, [], none⟩, none, false⟩ :=
  rfl

/-- pollNextScript on a non-empty buffer: the script is not consumed. -/
theorem pollNextScript_yield {T : Type} (u : Url) (fz : Fuse) (i : T) (rest : List T)
    (tk : Option String) (script : List (Except ApiError (ApiData (List T)))) :
    pollNextScript (⟨u, fz, i :: rest, tk⟩ : ApiResults T) script =
      (⟨.ready (some (.ok i)), ⟨u, fz, rest, tk⟩, none, false⟩, script) := by
  cases script <;> rfl

/-- pollNextScript on the exhausted state: the script is not consumed. -/
theorem pollNextScript_exhausted {T : Type} (u : Url)
    (script : List (Except ApiError (ApiData (List T)))) :
    pollNextScript (⟨u, .terminated, [], none⟩ : ApiResults T) script =
      (⟨.ready none, ⟨u, .terminated, [], none⟩, none, false⟩, script) := by
  cases script <;> rfl

/-- pollNextScript when the never-polled first fetch resolves with a page:
the page's token and items replace the stream's, the first item (if any) is
popped, the request for the stored URL reached the transport, and the script
advances. -/
theorem pollNextScript_resolve_unpolled {T : Type} (u w : Url) (tk : Option String)
    (its : List T) (tok : Option String)
    (rest' : List (Except ApiError (ApiData (List T)))) :
    pollNextScript (⟨u, .unpolled w, [], tk⟩ : ApiResults T)
        (.ok (encodePage (its, tok)) :: rest') =
      (match its with
       | [] => ⟨.ready none, ⟨u, .terminated, [], tok⟩, some w, true⟩
       | i :: r => ⟨.ready (some (.ok i)), ⟨u, .terminated, r, tok⟩, some w, true⟩,
       rest') := by
  cases its <;> rfl

/-- pollNextScript when the buffer is empty, the previous fetch completed and a
token is held: a fresh fetch to the token URL is constructed, polled, and
resolves with the next page. -/
theorem pollNextScript_resolve_token {T : Type} (u : Url) (t : String)
    (its : List T) (tok : Option String)
    (rest' : List (Except ApiError (ApiData (List T)))) :
    pollNextScript (⟨u, .terminated, [], some t⟩ : ApiResults T)
        (.ok (encodePage (its, tok)) :: rest') =
      (match its with
       | [] => ⟨.ready none, ⟨u, .terminated, [], tok⟩, some (withPaginationToken u t), true⟩
       | i :: r => ⟨.ready (some (.ok i)), ⟨u, .terminated, r, tok⟩,
           some (withPaginationToken u t), true⟩,
       rest') := by
  cases its <;> rfl

/-- Repeatedly polling while the fetch is in flight: the same pending operation
is observed every time, no request ever reaches the transport, and the state
never changes. -/
theorem pullN_inflight {T : Type} (u w : Url) (tk : Option String) (n : Nat) :
    pullN n (⟨u, .inFlight w, [], tk⟩ : ApiResults T) [] =
      (List.replicate n .pending, [], ⟨u, .inFlight w, [], tk⟩) := by
  induction n with
  | zero => rfl
  | succ n ih =>
    simp [pullN, pollNextScript, ApiResults.poll_next, pollFetch, List.replicate_succ, ih]

/-- Pulling any number of times from the exhausted state: every pull returns
Ready(None) immediately, no request reaches the transport, the state never
changes. -/
theorem pullN_exhausted {T : Type} (n : Nat) (s : ApiResults T) (h : Exhausted s) :
    pullN n s [] = (List.replicate n (.ready none), [], s) := by
  obtain ⟨u, r, its, tk⟩ := s
  obtain ⟨h1, h2, h3⟩ := h
  dsimp at h1 h2 h3
  subst h1; subst h2; subst h3
  induction n with
  | zero => rfl
  | succ n ih =>
    simp [pullN, pollNextScript, ApiResults.poll_next, List.replicate_succ, ih]

/-- The request that reaches the transport when a fetch future is polled: its
URL when the future had never been polled before, nothing when it was already
in flight. -/
theorem pollFetch_req {T : Type} (s : ApiResults T) (u : Url) (b : Bool) (env : EnvPoll T) :
    (pollFetch s u b env).req = if b then some u else none := by
  cases env with
  | pending => rfl
  | ready r =>
    cases r with
    | error e => rfl
    | ok d => cases hd : d.data.getD [] <;> simp [pollFetch, hd]

/-- Polling a fetch future never changes the stored original URL. -/
theorem pollFetch_state_url {T : Type} (s : ApiResults T) (u : Url) (b : Bool)
    (env : EnvPoll T) : (pollFetch s u b env).state.url = s.url := by
  cases env with
  | pending => rfl
  | ready r =>
    cases r with
    | error e => rfl
    | ok d => cases hd : d.data.getD [] <;> simp [pollFetch, hd]

/-- poll_next never changes the stored original URL: every token URL is built
on a clone. -/
theorem poll_next_url {T : Type} (s : ApiResults T) (env : EnvPoll T) :
    (s.poll_next env).state.url = s.url := by
  obtain ⟨u, r, its, tk⟩ := s
  cases its with
  | cons i rest => rfl
  | nil =>
    cases r with
    | unpolled w => exact pollFetch_state_url _ _ _ _
    | inFlight w => exact pollFetch_state_url _ _ _ _
    | terminated =>
      cases tk with
      | none => rfl
      | some t => exact pollFetch_state_url _ _ _ _

/-- Main run lemma: from a state with buffer buf whose fetch situation is
consistent with the remaining well-formed pages (terminated with no token when
no pages remain; terminated with a token, or a never-polled fetch, when pages
remain), pulling until end-of-sequence yields the buffer followed by the
concatenation of the pages' items, with exactly one transport request per
remaining page. -/
theorem runAux {T : Type} (fuel : Nat) :
    ∀ (buf : List T) (pages : List (List T × Option String)) (u : Url) (fz : Fuse)
      (tk : Option String),
      goodPages pages →
      (pages = [] → fz = .terminated ∧ tk = none) →
      (pages ≠ [] → (fz = .terminated ∧ tk ≠ none) ∨ (∃ w, fz = .unpolled w)) →
      buf.length + itemCount pages + pages.length + 1 ≤ fuel →
      (runUntilEnd fuel (⟨u, fz, buf, tk⟩ : ApiResults T) (pagesScript pages)).1 =
        (buf ++ pagesItems pages).map .ok ∧
      (runUntilEnd fuel (⟨u, fz, buf, tk⟩ : ApiResults T) (pagesScript pages)).2.1.length =
        pages.length := by
  induction fuel with
  | zero =>
    intro buf pages u fz tk _ _ _ hfuel
    omega
  | succ fuel ih =>
    intro buf pages u fz tk hgood hemp hne hfuel
    cases buf with
    | cons i rest =>
      have hfuel' : rest.length + itemCount pages + pages.length + 1 ≤ fuel := by
        simp only [List.length_cons] at hfuel
        omega
      have hrec := ih rest pages u fz tk hgood hemp hne hfuel'
      simp only [runUntilEnd, pollNextScript_yield]
      exact ⟨by simp [hrec.1], by simp [hrec.2]⟩
    | nil =>
      cases pages with
      | nil =>
        obtain ⟨hfz, htk⟩ := hemp rfl
        subst hfz; subst htk
        simp [runUntilEnd, pagesScript, pollNextScript_exhausted, pagesItems]
      | cons p ps =>
        obtain ⟨its, tok⟩ := p
        have harm := hne (by simp)
        obtain ⟨v, hstep⟩ : ∃ v,
            pollNextScript (⟨u, fz, [], tk⟩ : ApiResults T)
                (pagesScript ((its, tok) :: ps)) =
              (match its with
               | [] => ⟨.ready none, ⟨u, .terminated, [], tok⟩, some v, true⟩
               | i :: r => ⟨.ready (some (.ok i)), ⟨u, .terminated, r, tok⟩, some v, true⟩,
               pagesScript ps) := by
          rcases harm with ⟨hfz, htk⟩ | ⟨w, hfz⟩
          · subst hfz
            cases tk with
            | none => exact absurd rfl htk
            | some t => exact ⟨withPaginationToken u t, pollNextScript_resolve_token u t its tok _⟩
          · subst hfz
            exact ⟨w, pollNextScript_resolve_unpolled u w tk its tok _⟩
        cases its with
        | nil =>
          have hps : ps = [] := by
            cases ps with
            | nil => rfl
            | cons q qs => exact absurd rfl hgood.1
          subst hps
          have htok : tok = none := hgood
          subst htok
          simp only [runUntilEnd, hstep]
          exact ⟨by simp [pagesItems], by simp [itemCount]⟩
        | cons i irest =>
          have hfacts : goodPages ps ∧ (ps = [] → tok = none) ∧ (ps ≠ [] → tok ≠ none) := by
            cases ps with
            | nil => exact ⟨trivial, fun _ => hgood, fun h => absurd rfl h⟩
            | cons q qs =>
              exact ⟨hgood.2.2, fun h => absurd h (by simp), fun _ => hgood.2.1⟩
          have hfuel' : irest.length + itemCount ps + ps.length + 1 ≤ fuel := by
            simp only [itemCount, List.length_cons, List.length_nil] at hfuel ⊢
            omega
          have hrec := ih irest ps u .terminated tok hfacts.1
            (fun h => ⟨rfl, hfacts.2.1 h⟩) (fun h => Or.inl ⟨rfl, hfacts.2.2 h⟩) hfuel'
          simp only [runUntilEnd, hstep]
          exact ⟨by simp [hrec.1, pagesItems], by simp [hrec.2]⟩

/-- Claim C7 counterexample: the response with status 304 (a non-success
status: 304 is not between 200 and 299) and a body that does not decode makes
the single-page fetcher return the decode error, not an HTTP-status error —
because error_for_status only treats 400-599 as errors, the 304 body is
decoded and its malformation surfaces as a decode error. -/
theorem C7_counterexample :
    apiResultGet (T := Nat) (.response 304 none) = .error .decode ∧
    ¬(200 ≤ 304 ∧ 304 ≤ 299) := by
  decide

/-- Claim C7 (amended): for every fetcher invocation, if the server responds
with a client-error or server-error status (400-599) the fetcher returns the
HTTP-status error without attempting to decode the body, and a decode error
can only arise from a response whose status is outside 400-599 and whose body
does not match the Page shape. -/
theorem C7_amended (T : Type) :
    (∀ (status : Nat) (body : Option (ApiData T)), 400 ≤ status → status ≤ 599 →
      apiResultGet (.response status body) = .error (.httpStatus status)) ∧
    (∀ o : TransportOutcome T, apiResultGet o = .error .decode →
      ∃ status, o = .response status none ∧ ¬(400 ≤ status ∧ status ≤ 599)) := by
  constructor
  · intro status body h1 h2
    have h : error_for_status status = true := by
      simp only [error_for_status, decide_eq_true_eq]
      exact ⟨h1, h2⟩
    simp [apiResultGet, h]
  · intro o h
    match o with
    | .transportFail => simp [apiResultGet] at h
    | .response status body =>
      by_cases hs : error_for_status status = true
      · simp [apiResultGet, hs] at h
      · cases body with
        | some d => simp [apiResultGet, hs] at h
        | none =>
          exact ⟨status, rfl, by simpa [error_for_status, decide_eq_true_eq] using hs⟩

/-- Witness for C7_amended at concrete inputs: a 500 response with a
well-formed body still yields the HTTP-status error, and the decode error of a
malformed 200 response comes from a non-4xx/5xx status. -/
theorem C7_amended_witness :
    apiResultGet (T := Nat) (.response 500 (some ⟨none, none⟩)) = .error (.httpStatus 500) ∧
    ∃ status, (TransportOutcome.response 200 (none : Option (ApiData Nat))) =
      .response status none ∧ ¬(400 ≤ status ∧ status ≤ 599) := by
  have h := C7_amended Nat
  exact ⟨h.1 500 (some ⟨none, none⟩) (by decide) (by decide), h.2 (.response 200 none) (by decide)⟩

/-- Claim C8: constructing a paginated sequence — ApiResults::get directly, or
through Api::get_user_tweets — performs no network I/O: the fetch future is
still unpolled, and the request reaches the transport exactly at the first
pull (whatever the transport then answers). -/
theorem C8_lazy_construction (T : Type) (u : Url) (user_id : String)
    (opts : Option GetTweetOpts) (env : EnvPoll T) (envT : EnvPoll Tweet) :
    (ApiResults.get (T := T) u).result = .unpolled u ∧
    (get_user_tweets user_id opts).result = .unpolled (userTweetsUrl user_id opts) ∧
    ((ApiResults.get (T := T) u).poll_next env).req = some u ∧
    ((get_user_tweets user_id opts).poll_next envT).req = some (userTweetsUrl user_id opts) := by
  refine ⟨rfl, rfl, ?_, ?_⟩
  · simp [ApiResults.poll_next, ApiResults.get, pollFetch_req]
  · simp [get_user_tweets, ApiResults.poll_next, ApiResults.get, pollFetch_req]

/-- Claim C9: whenever the server answers the user lookup with a success
status and a body that decodes with an absent data field, the unwrap inside
Api::get_user_by_username panics (modelled as none), so the function's error
return does not cover this case. -/
theorem C9_absent_data_aborts (status : Nat) (meta : Option ApiMeta)
    (h1 : 200 ≤ status) (h2 : status ≤ 299) :
    get_user_by_username (.response status (some ⟨none, meta⟩)) = none := by
  have hs : error_for_status status = false := by
    simp only [error_for_status, decide_eq_false_iff_not]
    omega
  simp [get_user_by_username, apiResultGet, hs]

/-- Witness for C9_absent_data_aborts: a 200 response whose body is the empty
object (no data, no meta) makes get_user_by_username abort. -/
theorem C9_witness : get_user_by_username (.response 200 (some ⟨none, none⟩)) = none :=
  C9_absent_data_aborts 200 none (by decide) (by decide)

/-- Claim C10: the Debug formatting of BearerToken is the same for every pair
of token values (the secret never appears), while Display returns exactly the
underlying token string. -/
theorem C10_debug_display (t t' : BearerToken) :
    BearerToken.debugFmt t = BearerToken.debugFmt t' ∧
    BearerToken.displayFmt t = t.token :=
  ⟨rfl, rfl⟩

/-- Claim C1 counterexample: against the mock transport returning
(data: [], meta: (next_token: "abc")) and then (data: [42], meta: ()), the very
first pull — the one that resolves the empty page carrying a token — returns
Ready(None), i.e. it DOES report end-of-sequence; pulling until exhaustion
therefore yields no items at all, with exactly 1 fetch, instead of the claimed
single item and 2 fetches. -/
theorem C1_counterexample :
    (ApiResults.poll_next (ApiResults.get (T := Nat) ⟨"b", []⟩)
        (.ready (.ok ⟨some [], some ⟨0, none, none, some "abc", none⟩⟩))).out = .ready none ∧
    (runUntilEnd 10 (ApiResults.get (T := Nat) ⟨"b", []⟩)
        (pagesScript [([], some "abc"), ([42], none)])).1 = [] ∧
    (runUntilEnd 10 (ApiResults.get (T := Nat) ⟨"b", []⟩)
        (pagesScript [([], some "abc"), ([42], none)])).2.1.length = 1 := by
  decide

/-- Claim C1 (amended): when a completed fetch returns a page with zero items
but a continuation token, the pull that resolves it DOES report
end-of-sequence; the engine does not fetch again on its own. The token is
retained and the fetch future marked terminated, so a consumer that pulls
again past the end-of-sequence signal triggers a new fetch with that token.
For the mock responses (data: [], meta: (next_token: "abc")) then
(data: [42], meta: ()), three pulls yield EndOfSequence, then 42, then
EndOfSequence, with exactly 2 fetches (the second carrying the token). -/
theorem C1_amended (T : Type) (s : ApiResults T) (w : Url) (t : String)
    (d : ApiData (List T)) (h1 : s.items = [])
    (h2 : s.result = .unpolled w ∨ s.result = .inFlight w)
    (h3 : d.data.getD [] = []) (h4 : d.meta.bind (fun m => m.next_token) = some t) :
    ((s.poll_next (.ready (.ok d))).out = .ready none ∧
     (s.poll_next (.ready (.ok d))).state = ⟨s.url, .terminated, [], some t⟩) ∧
    (∀ env : EnvPoll T,
      (ApiResults.poll_next (⟨s.url, .terminated, [], some t⟩ : ApiResults T) env).req =
        some (withPaginationToken s.url t)) ∧
    pullN 3 (ApiResults.get (T := Nat) ⟨"b", []⟩)
        (pagesScript [([], some "abc"), ([42], none)]) =
      ([.ready none, .ready (some (.ok 42)), .ready none],
       [⟨"b", []⟩, ⟨"b", [("pagination_token", "abc")]⟩],
       ⟨⟨"b", []⟩, .terminated, [], none⟩) := by
  refine ⟨?_, ?_, by decide⟩
  · obtain ⟨u, r, its, tk⟩ := s
    dsimp only at h1 h2 h3 h4 ⊢
    subst h1
    rcases h2 with h2 | h2 <;> subst h2 <;>
      simp [ApiResults.poll_next, pollFetch, h3, h4]
  · intro env
    simp [ApiResults.poll_next, pollFetch_req]

/-- Witness for C1_amended: the empty-page-with-token step at concrete inputs. -/
theorem C1_witness :
    ((ApiResults.poll_next (ApiResults.get (T := Nat) ⟨"b", []⟩)
        (.ready (.ok ⟨some [], some ⟨0, none, none, some "abc", none⟩⟩))).out = .ready none ∧
     (ApiResults.poll_next (ApiResults.get (T := Nat) ⟨"b", []⟩)
        (.ready (.ok ⟨some [], some ⟨0, none, none, some "abc", none⟩⟩))).state =
       ⟨⟨"b", []⟩, .terminated, [], some "abc"⟩) ∧
    (ApiResults.poll_next (⟨⟨"b", []⟩, .terminated, [], some "abc"⟩ : ApiResults Nat)
        .pending).req = some (withPaginationToken ⟨"b", []⟩ "abc") ∧
    pullN 3 (ApiResults.get (T := Nat) ⟨"b", []⟩)
        (pagesScript [([], some "abc"), ([42], none)]) =
      ([.ready none, .ready (some (.ok 42)), .ready none],
       [⟨"b", []⟩, ⟨"b", [("pagination_token", "abc")]⟩],
       ⟨⟨"b", []⟩, .terminated, [], none⟩) := by
  have h := C1_amended Nat (ApiResults.get ⟨"b", []⟩) ⟨"b", []⟩ "abc"
    ⟨some [], some ⟨0, none, none, some "abc", none⟩⟩ rfl (Or.inl rfl) rfl rfl
  exact ⟨h.1, h.2.1 .pending, h.2.2⟩

/-- Claim C2 counterexample: when the FIRST page's fetch fails (transport
error), the pull reports the error, but the next pull returns end-of-sequence
with no request issued — it terminates instead of re-fetching the first page,
contradicting the claim's "including when the failing fetch was the first
page". -/
theorem C2_counterexample :
    pullN 2 (ApiResults.get (T := Nat) ⟨"b", []⟩) [.error .transport] =
      ([.ready (some (.error .transport)), .ready none], [⟨"b", []⟩],
       ⟨⟨"b", []⟩, .terminated, [], none⟩) := by
  decide

/-- Claim C2 (amended): every fetch error propagates to the pull that
triggered it, and the continuation token and (empty) buffer are left exactly
as they were before the fetch attempt. When a continuation token is held —
i.e. the failing fetch was a token-bearing page fetch — the next pull
re-fetches exactly the same URL with the same token. But when the failing
fetch was the first page (no token held), the next pull returns
end-of-sequence without issuing any fetch. -/
theorem C2_amended (T : Type) (e : ApiError) :
    (∀ (s : ApiResults T) (t : String), s.items = [] → s.result = .terminated →
      s.pagination_token = some t →
      s.poll_next (.ready (.error e)) =
        ⟨.ready (some (.error e)), ⟨s.url, .terminated, [], some t⟩,
         some (withPaginationToken s.url t), true⟩) ∧
    (∀ (u : Url) (t : String) (env : EnvPoll T),
      (ApiResults.poll_next (⟨u, .terminated, [], some t⟩ : ApiResults T) env).req =
        some (withPaginationToken u t)) ∧
    (∀ (s : ApiResults T) (w : Url), s.items = [] → s.result = .unpolled w →
      s.poll_next (.ready (.error e)) =
        ⟨.ready (some (.error e)), ⟨s.url, .terminated, [], s.pagination_token⟩,
         some w, true⟩) ∧
    (∀ (u : Url) (env : EnvPoll T),
      ApiResults.poll_next (⟨u, .terminated, [], none⟩ : ApiResults T) env =
        ⟨.ready none, ⟨u, .terminated, [], none⟩, none, false⟩) := by
  refine ⟨?_, ?_, ?_, fun u env => step_exhausted u env⟩
  · rintro ⟨u, r, its, tk⟩ t h1 h2 h3
    dsimp only at h1 h2 h3
    subst h1; subst h2; subst h3
    rfl
  · intro u t env
    simp [ApiResults.poll_next, pollFetch_req]
  · rintro ⟨u, r, its, tk⟩ w h1 h2
    dsimp only at h1 h2
    subst h1; subst h2
    rfl

/-- Witness for C2_amended at concrete inputs: an HttpStatusError(500) on the
token-bearing second fetch is reported with token kept, the following pull
retries the same token URL, and a first-page failure is followed by
end-of-sequence. -/
theorem C2_witness :
    ApiResults.poll_next (⟨⟨"b", []⟩, .terminated, [], some "t2"⟩ : ApiResults Nat)
        (.ready (.error (.httpStatus 500))) =
      ⟨.ready (some (.error (.httpStatus 500))), ⟨⟨"b", []⟩, .terminated, [], some "t2"⟩,
       some (withPaginationToken ⟨"b", []⟩ "t2"), true⟩ ∧
    (ApiResults.poll_next (⟨⟨"b", []⟩, .terminated, [], some "t2"⟩ : ApiResults Nat)
        .pending).req = some (withPaginationToken ⟨"b", []⟩ "t2") ∧
    ApiResults.poll_next (ApiResults.get (T := Nat) ⟨"b", []⟩)
        (.ready (.error (.httpStatus 500))) =
      ⟨.ready (some (.error (.httpStatus 500))), ⟨⟨"b", []⟩, .terminated, [], none⟩,
       some ⟨"b", []⟩, true⟩ ∧
    ApiResults.poll_next (⟨⟨"b", []⟩, .terminated, [], none⟩ : ApiResults Nat) .pending =
      ⟨.ready none, ⟨⟨"b", []⟩, .terminated, [], none⟩, none, false⟩ := by
  have h := C2_amended Nat (.httpStatus 500)
  exact ⟨h.1 _ "t2" rfl rfl rfl, h.2.1 ⟨"b", []⟩ "t2" .pending,
    h.2.2.1 _ ⟨"b", []⟩ rfl rfl, h.2.2.2 ⟨"b", []⟩ .pending⟩

/-- Claim C3 counterexample: for the pages P1 = ([1], token "t1"),
P2 = ([], token "t2"), P3 = ([2], no token), pulling until exhaustion yields
only [1] (the empty middle page makes the stream report end-of-sequence),
not the concatenation [1, 2] of the pages' items. -/
theorem C3_counterexample :
    (runUntilEnd 10 (ApiResults.get (T := Nat) ⟨"b", []⟩)
        (pagesScript [([1], some "t1"), ([], some "t2"), ([2], none)])).1 = [.ok 1] ∧
    pagesItems [([1], some "t1"), ([], some "t2"), ([(2 : Nat)], none)] = [1, 2] ∧
    ([Except.ok 1] : List (Except ApiError Nat)) ≠ [1, 2].map Except.ok := by
  decide

/-- Claim C3 (amended): for every finite sequence of pages in which every page
but the last is non-empty and carries a continuation token, and the last page
carries none, pulling until exhaustion yields exactly the concatenation of the
pages' item lists in page order and within-page order, with exactly one fetch
per page; and a non-empty buffer is always drained before any new fetch: a
pull with a buffered item returns it without polling or issuing anything. -/
theorem C3_amended (T : Type) (u : Url) (pages : List (List T × Option String))
    (hgood : goodPages pages) (hne : pages ≠ []) :
    ((runUntilEnd (itemCount pages + pages.length + 1) (ApiResults.get u)
        (pagesScript pages)).1 = (pagesItems pages).map .ok ∧
     (runUntilEnd (itemCount pages + pages.length + 1) (ApiResults.get u)
        (pagesScript pages)).2.1.length = pages.length) ∧
    (∀ (s : ApiResults T) (i : T) (rest : List T) (env : EnvPoll T), s.items = i :: rest →
      s.poll_next env = ⟨.ready (some (.ok i)), ⟨s.url, s.result, rest, s.pagination_token⟩,
        none, false⟩) := by
  constructor
  · exact runAux _ [] pages u (.unpolled u) none hgood (fun h => absurd h hne)
      (fun _ => Or.inr ⟨u, rfl⟩) (by simp)
  · rintro ⟨u', r', its', tk'⟩ i rest env h
    dsimp only at h
    subst h
    rfl

/-- Witness for C3_amended: two concrete pages ([1,2] with a token, then [3]
without) yield 1, 2, 3 with exactly 2 fetches, and a buffered pull pops the
front item without any request. -/
theorem C3_witness :
    (runUntilEnd 6 (ApiResults.get (T := Nat) ⟨"b", []⟩)
        (pagesScript [([1, 2], some "t"), ([3], none)])).1 = [.ok 1, .ok 2, .ok 3] ∧
    (runUntilEnd 6 (ApiResults.get (T := Nat) ⟨"b", []⟩)
        (pagesScript [([1, 2], some "t"), ([3], none)])).2.1.length = 2 ∧
    ApiResults.poll_next (⟨⟨"b", []⟩, .terminated, [9, 8], none⟩ : ApiResults Nat) .pending =
      ⟨.ready (some (.ok 9)), ⟨⟨"b", []⟩, .terminated, [8], none⟩, none, false⟩ := by
  have hg : goodPages [([1, 2], some "t"), ([(3 : Nat)], none)] := ⟨by simp, by simp, rfl⟩
  have h := C3_amended Nat ⟨"b", []⟩ [([1, 2], some "t"), ([3], none)] hg (by simp)
  exact ⟨h.1.1, h.1.2, h.2 _ 9 [8] .pending rfl⟩

/-- Claim C4: at most one fetch is in flight per sequence: from a fresh stream,
n+1 pulls that all find the fetch still pending issue exactly one transport
request (at the first pull) and leave the same operation in flight; and any
pull on a state whose fetch is in flight just polls that same pending
operation — no request is issued and the state is unchanged. -/
theorem C4_single_flight (T : Type) (u : Url) (n : Nat) :
    pullN (n + 1) (ApiResults.get (T := T) u) [] =
      (List.replicate (n + 1) .pending, [u], ⟨u, .inFlight u, [], none⟩) ∧
    (∀ (s : ApiResults T) (w : Url), s.result = .inFlight w → s.items = [] →
      s.poll_next .pending = ⟨.pending, s, none, true⟩) := by
  constructor
  · simp [pullN, pollNextScript, ApiResults.poll_next, ApiResults.get, pollFetch,
      List.replicate_succ, pullN_inflight]
  · rintro ⟨u', r, its, tk⟩ w h1 h2
    dsimp only at h1 h2
    subst h1; subst h2
    rfl

/-- Witness for C4_single_flight: three pulls on a fresh stream with the fetch
never resolving issue exactly one request. -/
theorem C4_witness :
    pullN 3 (ApiResults.get (T := Nat) ⟨"b", []⟩) [] =
      (List.replicate 3 .pending, [⟨"b", []⟩], ⟨⟨"b", []⟩, .inFlight ⟨"b", []⟩, [], none⟩) ∧
    ApiResults.poll_next (⟨⟨"b", []⟩, .inFlight ⟨"b", []⟩, [], none⟩ : ApiResults Nat)
        .pending =
      ⟨.pending, ⟨⟨"b", []⟩, .inFlight ⟨"b", []⟩, [], none⟩, none, true⟩ := by
  have h := C4_single_flight Nat ⟨"b", []⟩ 2
  exact ⟨h.1, h.2 _ _ rfl rfl⟩

/-- Claim C5: once the buffer is empty, the last fetch completed, and no token
is held, the pull returns end-of-sequence and the state is terminally
exhausted: every pull on an exhausted state returns Ready(None) immediately,
with no request and no state change, for any number of pulls; concretely a
single page (data: [a, b], meta: ()) yields a, b, then EndOfSequence, with
exactly one fetch, and the final state is exhausted. -/
theorem C5_terminal_exhaustion (T : Type) (a b : T) (u : Url) (n : Nat) :
    (∀ (s : ApiResults T) (env : EnvPoll T), Exhausted s →
      s.poll_next env = ⟨.ready none, s, none, false⟩) ∧
    (∀ s : ApiResults T, Exhausted s →
      pullN n s [] = (List.replicate n (.ready none), [], s)) ∧
    runUntilEnd 4 (ApiResults.get u) [.ok ⟨some [a, b], some ⟨2, none, none, none, none⟩⟩] =
      ([.ok a, .ok b], [u], ⟨u, .terminated, [], none⟩) ∧
    Exhausted (⟨u, .terminated, [], none⟩ : ApiResults T) := by
  refine ⟨?_, fun s h => pullN_exhausted n s h, rfl, ⟨rfl, rfl, rfl⟩⟩
  rintro ⟨u', r, its, tk⟩ env ⟨h1, h2, h3⟩
  dsimp only at h1 h2 h3
  subst h1; subst h2; subst h3
  rfl

/-- Witness for C5_terminal_exhaustion at concrete inputs. -/
theorem C5_witness :
    ApiResults.poll_next (⟨⟨"b", []⟩, .terminated, [], none⟩ : ApiResults Nat) .pending =
      ⟨.ready none, ⟨⟨"b", []⟩, .terminated, [], none⟩, none, false⟩ ∧
    pullN 2 (⟨⟨"b", []⟩, .terminated, [], none⟩ : ApiResults Nat) [] =
      (List.replicate 2 (.ready none), [], ⟨⟨"b", []⟩, .terminated, [], none⟩) ∧
    runUntilEnd 4 (ApiResults.get (T := Nat) ⟨"b", []⟩)
        [.ok ⟨some [1, 2], some ⟨2, none, none, none, none⟩⟩] =
      ([.ok 1, .ok 2], [⟨"b", []⟩], ⟨⟨"b", []⟩, .terminated, [], none⟩) := by
  have h := C5_terminal_exhaustion Nat 1 2 ⟨"b", []⟩ 2
  exact ⟨h.1 _ .pending ⟨rfl, rfl, rfl⟩, h.2.1 _ ⟨rfl, rfl, rfl⟩, h.2.2.1⟩

/-- Claim C6: the stored original URL is never mutated by any pull; the fetch
for a held token t targets the clone of the original URL with the pair
("pagination_token", t) appended after all original query pairs; concretely
the second fetch's URL carries the first page's next_token with the original
query pair preserved. -/
theorem C6_token_roundtrip (T : Type) :
    (∀ (s : ApiResults T) (env : EnvPoll T), (s.poll_next env).state.url = s.url) ∧
    (∀ (s : ApiResults T) (t : String) (env : EnvPoll T),
      s.items = [] → s.result = .terminated → s.pagination_token = some t →
      (s.poll_next env).req = some ⟨s.url.base, s.url.query ++ [("pagination_token", t)]⟩) ∧
    (pullN 2 (ApiResults.get (T := Nat) ⟨"b", [("q", "1")]⟩)
        [.ok ⟨some [7], some ⟨1, none, none, some "tok1", none⟩⟩]).2.1 =
      [⟨"b", [("q", "1")]⟩, ⟨"b", [("q", "1"), ("pagination_token", "tok1")]⟩] := by
  refine ⟨fun s env => poll_next_url s env, ?_, by decide⟩
  rintro ⟨u, r, its, tk⟩ t env h1 h2 h3
  dsimp only at h1 h2 h3
  subst h1; subst h2; subst h3
  simp [ApiResults.poll_next, pollFetch_req, withPaginationToken]

/-- Witness for C6_token_roundtrip at concrete inputs. -/
theorem C6_witness :
    (ApiResults.poll_next (ApiResults.get (T := Nat) ⟨"b", [("q", "1")]⟩) .pending).state.url =
      ⟨"b", [("q", "1")]⟩ ∧
    (ApiResults.poll_next (⟨⟨"b", []⟩, .terminated, [], some "tk"⟩ : ApiResults Nat)
        .pending).req = some ⟨"b", [("pagination_token", "tk")]⟩ ∧
    (pullN 2 (ApiResults.get (T := Nat) ⟨"b", [("q", "1")]⟩)
        [.ok ⟨some [7], some ⟨1, none, none, some "tok1", none⟩⟩]).2.1 =
      [⟨"b", [("q", "1")]⟩, ⟨"b", [("q", "1"), ("pagination_token", "tok1")]⟩] := by
  have h := C6_token_roundtrip Nat
  exact ⟨h.1 _ .pending, h.2.1 _ "tk" .pending rfl rfl rfl, h.2.2⟩

